import Mathlib

/-
Verification of the signaling orchestrator in src/src/components/VideoCall.tsx
(the complete implementation, lines 383-873 of the concatenated source).

The orchestrator is a single client's event-driven state machine: a table of
peer sessions keyed by peerId (peerConnections.current), a map of remote
streams keyed by peerId (remoteStreams), and published signaling records.
Callbacks are serialized on one event loop; each handler below embeds the
synchronous check-decide-mutate portion of the corresponding source callback.
-/

namespace MeetClone

/-- An ICE candidate as serialized by the source (lines 578-587): the four
fields written into a candidates-collection record. -/
structure Cand where
  candidate : String
  sdpMLineIndex : Nat
  sdpMid : String
  usernameFragment : String
deriving DecidableEq, Repr

/-- Role of a session, determined in the source by the shouldInitiate
argument of createPeerConnection (line 535): true on the membership-join
path (line 490), false on the inbound-offer path (line 522). -/
inductive Role where
  | Initiator
  | Responder
deriving DecidableEq, Repr

/-- A signaling record published to the store: an offer (lines 611-616) or
an answer (lines 633-638), with payload and from/to addressing. The
timestamp field of the source record is omitted (never read back). -/
structure SigRecord where
  fromId : String
  toId : String
  payload : String
deriving DecidableEq, Repr

/-- One peer session: the per-peer RTCPeerConnection state the orchestrator
observes plus the pendingCandidates buffer created in setupSignalingListeners
(line 647). appliedCandidates records the sequence of pc.addIceCandidate
calls made for this session. -/
structure Session where
  role : Role
  remoteDescription : Option String
  pendingCandidates : List Cand
  appliedCandidates : List Cand
deriving DecidableEq, Repr

/-- Association-list lookup keyed by peerId, embedding the JavaScript object
index peerConnections.current[peerId]. -/
def alookup (k : String) : List (String × α) → Option α
  | [] => none
  | (k', v) :: rest => if k' = k then some v else alookup k rest

/-- Replace the value stored at an existing key, leaving other entries and
the key set unchanged. -/
def aset (k : String) (v : α) : List (String × α) → List (String × α)
  | [] => []
  | (k', v') :: rest => if k' = k then (k, v) :: aset k v rest else (k', v') :: aset k v rest

/-- Insert-or-replace, embedding JavaScript Map.prototype.set (line 563). -/
def asetI (k : String) (v : α) (l : List (String × α)) : List (String × α) :=
  if (alookup k l).isSome then aset k v l else l ++ [(k, v)]

/-- Remove every entry for a key, embedding the delete operator on
peerConnections.current (line 711) and Map.prototype.delete (line 715). -/
def aremove (k : String) : List (String × α) → List (String × α)
  | [] => []
  | (k', v') :: rest => if k' = k then aremove k rest else (k', v') :: aremove k rest

/-- The keys of an association list. -/
def akeys : List (String × α) → List String
  | [] => []
  | (k, _) :: rest => k :: akeys rest

/-- The whole orchestrator state of one client. staleParticipants is the
value of the participants React state captured by the snapshot-listener
closure: the listener is registered exactly once (from the mount effect via
joinRoom, line 475), so the closure permanently sees the initial empty set;
no handler ever writes this field. pendingInbound holds offers whose guarded
creation (line 520-523) has run but whose handleIncomingOffer continuation
has not yet resumed. -/
structure CState where
  clientId : String
  sessions : List (String × Session)
  remoteStreams : List (String × String)
  pendingInbound : List (String × String)
  publishedOffers : List SigRecord
  publishedAnswers : List SigRecord
  closedHandles : List String
  staleParticipants : List String
deriving DecidableEq, Repr

/-- The initial state of a client right after joinRoom registers its
listeners: empty table, empty stream map, nothing published. -/
def initState (cid : String) : CState :=
  { clientId := cid
    sessions := []
    remoteStreams := []
    pendingInbound := []
    publishedOffers := []
    publishedAnswers := []
    closedHandles := []
    staleParticipants := [] }

/-- A session as constructed by createPeerConnection (lines 531-556): fresh
connection, no remote description, empty candidate buffer. -/
def freshSession (r : Role) : Session :=
  { role := r
    remoteDescription := none
    pendingCandidates := []
    appliedCandidates := [] }

/-- Membership-join detection, lines 478-492: the snapshot callback filters
out empty ids and self (line 480), then for each current participant not in
the captured participants set and without an existing connection (line 488)
calls createPeerConnection with shouldInitiate = true (line 490), which
creates an Initiator session and publishes one offer record (lines 603-617). -/
def onJoinSeen (s : CState) (pid : String) : CState :=
  if pid = "" ∨ pid = s.clientId ∨ pid ∈ s.staleParticipants
      ∨ (alookup pid s.sessions).isSome then s
  else
    { s with
      sessions := (pid, freshSession Role.Initiator) :: s.sessions
      publishedOffers :=
        s.publishedOffers ++ [{ fromId := s.clientId, toId := pid, payload := "offer" }] }

/-- Inbound-offer detection, lines 515-523: the offer-query callback checks
fromId is nonempty, not self, and has no existing connection (line 520),
then calls createPeerConnection with shouldInitiate = false, creating a
Responder session; the handleIncomingOffer continuation (line 523) is still
pending at this point, recorded in pendingInbound. -/
def onOfferArrived (s : CState) (pid : String) (sdp : String) : CState :=
  if pid = "" ∨ pid = s.clientId ∨ (alookup pid s.sessions).isSome then s
  else
    { s with
      sessions := (pid, freshSession Role.Responder) :: s.sessions
      pendingInbound := s.pendingInbound ++ [(pid, sdp)] }

/-- handleIncomingOffer, lines 624-644: resumed only for an offer queued by
onOfferArrived. If the session is gone the function returns early (line
626); otherwise it sets the remote description from the offer, creates and
sets an answer, and publishes the answer record addressed to the sender
(lines 629-638). Note: it does not flush pendingCandidates. -/
def onOfferApplied (s : CState) (pid : String) (sdp : String) : CState :=
  if (pid, sdp) ∈ s.pendingInbound then
    match alookup pid s.sessions with
    | none =>
        { s with pendingInbound := s.pendingInbound.erase (pid, sdp) }
    | some sess =>
        { s with
          sessions := aset pid { sess with remoteDescription := some sdp } s.sessions
          publishedAnswers :=
            s.publishedAnswers ++ [{ fromId := s.clientId, toId := pid, payload := "answer" }]
          pendingInbound := s.pendingInbound.erase (pid, sdp) }
  else s

/-- Inbound-answer handler, lines 652-674: if no remote description is set
yet, set it from the answer and flush pendingCandidates in FIFO order
through pc.addIceCandidate (lines 657-666); if a remote description is
already set, only the record deletion happens and the state is unchanged.
A session torn down by cleanup has a closed connection, on which every
engine call throws and is caught (line 669-671), so the entry-absent case
leaves the state unchanged. -/
def onAnswerArrived (s : CState) (pid : String) (sdp : String) : CState :=
  match alookup pid s.sessions with
  | none => s
  | some sess =>
      if sess.remoteDescription.isSome then s
      else
        { s with
          sessions :=
            aset pid
              { sess with
                remoteDescription := some sdp
                appliedCandidates := sess.appliedCandidates ++ sess.pendingCandidates
                pendingCandidates := [] }
              s.sessions }

/-- The engine operation addIceCandidate per the PeerConnectionEngine
contract: fails if no remote description is set, otherwise applies the
candidate. -/
def addIceCandidate (sess : Session) (c : Cand) : Except String Session :=
  if sess.remoteDescription.isSome then
    Except.ok { sess with appliedCandidates := sess.appliedCandidates ++ [c] }
  else
    Except.error "no remote description"

/-- Inbound-candidate handler, lines 680-705: if the remote description is
set, apply the candidate immediately (line 692); otherwise append it to the
pendingCandidates buffer (line 696). The record is deleted in either case.
As with answers, operations on a torn-down session's closed connection
throw and are caught, leaving the state unchanged. -/
def onCandidateArrived (s : CState) (pid : String) (c : Cand) : CState :=
  match alookup pid s.sessions with
  | none => s
  | some sess =>
      if sess.remoteDescription.isSome then
        match addIceCandidate sess c with
        | Except.ok sess' => { s with sessions := aset pid sess' s.sessions }
        | Except.error _ => s
      else
        { s with
          sessions :=
            aset pid { sess with pendingCandidates := sess.pendingCandidates ++ [c] } s.sessions }

/-- Track callback, lines 558-565: records the peer's remote stream in the
streams map, insert-or-replace keyed by peerId. A closed connection fires
no track events, so the event only occurs for a session still in the table. -/
def onTrackFired (s : CState) (pid : String) (streamId : String) : CState :=
  match alookup pid s.sessions with
  | none => s
  | some _ => { s with remoteStreams := asetI pid streamId s.remoteStreams }

/-- cleanupPeerConnection, lines 708-718: if an entry exists, close the
connection handle and delete the table entry; unconditionally delete the
peer's remote stream from the map. Invoked from the membership-left branch
(line 497) and from onconnectionstatechange on failed or disconnected
(line 597). -/
def cleanupPeerConnection (s : CState) (pid : String) : CState :=
  if (alookup pid s.sessions).isSome then
    { s with
      sessions := aremove pid s.sessions
      remoteStreams := aremove pid s.remoteStreams
      closedHandles := s.closedHandles ++ [pid] }
  else
    { s with remoteStreams := aremove pid s.remoteStreams }

/-- Full delivery of one offer record, lines 515-527: the guard at line 520
wraps both the session creation and the handleIncomingOffer continuation,
so a redelivered offer whose session already exists does nothing. -/
def deliverOfferRecord (s : CState) (pid : String) (sdp : String) : CState :=
  if pid = "" ∨ pid = s.clientId ∨ (alookup pid s.sessions).isSome then s
  else onOfferApplied (onOfferArrived s pid sdp) pid sdp

/-- The external events that drive one client's orchestrator. offerArr and
offerApp are the two halves of offer delivery separated by the await
suspension points inside the offer callback; candidate and answer
deliveries may interleave between them. -/
inductive Ev where
  | join (pid : String)
  | offerArr (pid : String) (sdp : String)
  | offerApp (pid : String) (sdp : String)
  | answer (pid : String) (sdp : String)
  | cand (pid : String) (c : Cand)
  | track (pid : String) (streamId : String)
  | connFail (pid : String)
deriving DecidableEq, Repr

/-- One serialized callback step. -/
def stepEv (s : CState) : Ev → CState
  | Ev.join pid => onJoinSeen s pid
  | Ev.offerArr pid sdp => onOfferArrived s pid sdp
  | Ev.offerApp pid sdp => onOfferApplied s pid sdp
  | Ev.answer pid sdp => onAnswerArrived s pid sdp
  | Ev.cand pid c => onCandidateArrived s pid c
  | Ev.track pid streamId => onTrackFired s pid streamId
  | Ev.connFail pid => cleanupPeerConnection s pid

/-- Run a sequence of serialized callbacks from a state. -/
def run (s : CState) (evs : List Ev) : CState :=
  evs.foldl stepEv s

theorem alookup_aset_self {α : Type} (k : String) (v : α) (l : List (String × α))
    (h : (alookup k l).isSome) : alookup k (aset k v l) = some v := by
  induction l with
  | nil => simp [alookup] at h
  | cons p rest ih =>
      obtain ⟨a, b⟩ := p
      by_cases hk : a = k
      · subst hk
        simp [alookup, aset]
      · simp [alookup, aset, hk] at h ⊢
        exact ih h

theorem alookup_aset_ne {α : Type} (k q : String) (v : α) (l : List (String × α))
    (h : q ≠ k) : alookup q (aset k v l) = alookup q l := by
  induction l with
  | nil => simp [aset]
  | cons p rest ih =>
      obtain ⟨a, b⟩ := p
      by_cases hk : a = k
      · simp [alookup, aset, hk, Ne.symm h, ih]
      · by_cases hq : a = q
        · simp [alookup, aset, hk, hq, h]
        · simp [alookup, aset, hk, hq, ih]

theorem isSome_alookup_aset {α : Type} (k q : String) (v : α) (l : List (String × α)) :
    (alookup q (aset k v l)).isSome = (alookup q l).isSome := by
  induction l with
  | nil => simp [aset]
  | cons p rest ih =>
      obtain ⟨a, b⟩ := p
      by_cases hk : a = k
      · by_cases hq : k = q
        · simp [alookup, aset, hk, hq]
        · simp [alookup, aset, hk, hq, ih]
      · by_cases hq : a = q
        · have hqk : ¬ q = k := hq ▸ hk
          simp [alookup, aset, hk, hq, hqk]
        · simp [alookup, aset, hk, hq, ih]

theorem alookup_aremove_self {α : Type} (k : String) (l : List (String × α)) :
    alookup k (aremove k l) = none := by
  induction l with
  | nil => simp [aremove, alookup]
  | cons p rest ih =>
      obtain ⟨a, b⟩ := p
      by_cases hk : a = k
      · simp [aremove, hk, ih]
      · simp [aremove, alookup, hk, ih]

theorem alookup_aremove_ne {α : Type} (k q : String) (l : List (String × α))
    (h : q ≠ k) : alookup q (aremove k l) = alookup q l := by
  induction l with
  | nil => simp [aremove]
  | cons p rest ih =>
      obtain ⟨a, b⟩ := p
      by_cases hk : a = k
      · simp [aremove, alookup, hk, Ne.symm h, ih]
      · by_cases hq : a = q
        · simp [aremove, alookup, hk, hq, h]
        · simp [aremove, alookup, hk, hq, ih]

theorem aremove_aremove {α : Type} (k : String) (l : List (String × α)) :
    aremove k (aremove k l) = aremove k l := by
  induction l with
  | nil => simp [aremove]
  | cons p rest ih =>
      obtain ⟨a, b⟩ := p
      by_cases hk : a = k
      · simp [aremove, hk, ih]
      · simp [aremove, hk, ih]

theorem aremove_of_alookup_none {α : Type} (k : String) (l : List (String × α))
    (h : alookup k l = none) : aremove k l = l := by
  induction l with
  | nil => simp [aremove]
  | cons p rest ih =>
      obtain ⟨a, b⟩ := p
      by_cases hk : a = k
      · simp [alookup, hk] at h
      · simp [alookup, hk] at h
        simp [aremove, hk, ih h]

theorem akeys_aset {α : Type} (k : String) (v : α) (l : List (String × α)) :
    akeys (aset k v l) = akeys l := by
  induction l with
  | nil => simp [aset]
  | cons p rest ih =>
      obtain ⟨a, b⟩ := p
      by_cases hk : a = k
      · simp [aset, akeys, hk, ih]
      · simp [aset, akeys, hk, ih]

theorem mem_akeys_aremove {α : Type} (k q : String) (l : List (String × α))
    (h : q ∈ akeys (aremove k l)) : q ∈ akeys l := by
  induction l with
  | nil => simp [aremove, akeys] at h
  | cons p rest ih =>
      obtain ⟨a, b⟩ := p
      by_cases hk : a = k
      · simp [aremove, hk] at h
        simp [akeys]
        exact Or.inr (ih h)
      · simp [aremove, akeys, hk] at h ⊢
        rcases h with h | h
        · exact Or.inl h
        · exact Or.inr (ih h)

theorem nodup_akeys_aremove {α : Type} (k : String) (l : List (String × α))
    (h : (akeys l).Nodup) : (akeys (aremove k l)).Nodup := by
  induction l with
  | nil => simp [aremove, akeys]
  | cons p rest ih =>
      obtain ⟨a, b⟩ := p
      simp [akeys] at h
      by_cases hk : a = k
      · simp [aremove, hk]
        exact ih h.2
      · simp [aremove, akeys, hk]
        exact ⟨fun hmem => h.1 (mem_akeys_aremove k a rest hmem), ih h.2⟩

theorem alookup_eq_none_of_not_mem {α : Type} (k : String) (l : List (String × α))
    (h : k ∉ akeys l) : alookup k l = none := by
  induction l with
  | nil => simp [alookup]
  | cons p rest ih =>
      obtain ⟨a, b⟩ := p
      simp [akeys] at h
      have h1 : ¬ a = k := fun he => h.1 he.symm
      simp [alookup, h1]
      exact ih h.2

theorem not_mem_akeys_of_alookup_none {α : Type} (k : String) (l : List (String × α))
    (h : alookup k l = none) : k ∉ akeys l := by
  induction l with
  | nil => simp [akeys]
  | cons p rest ih =>
      obtain ⟨a, b⟩ := p
      by_cases hk : a = k
      · simp [alookup, hk] at h
      · simp [alookup, hk] at h
        simp [akeys]
        exact ⟨fun he => hk he.symm, ih h⟩

theorem alookup_append_of_none {α : Type} (q : String) (l m : List (String × α))
    (h : alookup q l = none) : alookup q (l ++ m) = alookup q m := by
  induction l with
  | nil => simp
  | cons p rest ih =>
      obtain ⟨a, b⟩ := p
      by_cases hq : a = q
      · simp [alookup, hq] at h
      · simp [alookup, hq] at h ⊢
        exact ih h

theorem alookup_append_of_some {α : Type} (q : String) (l m : List (String × α)) (v : α)
    (h : alookup q l = some v) : alookup q (l ++ m) = some v := by
  induction l with
  | nil => simp [alookup] at h
  | cons p rest ih =>
      obtain ⟨a, b⟩ := p
      by_cases hq : a = q
      · simp [alookup, hq] at h ⊢
        exact h
      · simp [alookup, hq] at h ⊢
        exact ih h

theorem isSome_alookup_asetI {α : Type} (k q : String) (v : α) (l : List (String × α)) :
    (alookup q (asetI k v l)).isSome = true ↔ q = k ∨ (alookup q l).isSome = true := by
  unfold asetI
  by_cases hs : (alookup k l).isSome
  · rw [if_pos hs]
    by_cases hq : q = k
    · subst hq
      rw [alookup_aset_self q v l hs]
      simp [hs]
    · rw [alookup_aset_ne k q v l hq]
      simp [hq]
  · rw [if_neg hs]
    by_cases hq : q = k
    · subst hq
      have hnone : alookup q l = none := by
        cases hl : alookup q l with
        | none => rfl
        | some v' => rw [hl] at hs; simp at hs
      rw [alookup_append_of_none q l _ hnone]
      simp [alookup]
    · cases hl : alookup q l with
      | none =>
          rw [alookup_append_of_none q l _ hl]
          have h1 : ¬ k = q := fun he => hq he.symm
          simp [alookup, h1, hq]
      | some v' =>
          rw [alookup_append_of_some q l _ v' hl]
          simp [hq]

theorem run_preserve (P : CState → Prop) (hP : ∀ s e, P s → P (stepEv s e)) :
    ∀ (evs : List Ev) (s : CState), P s → P (run s evs) := by
  intro evs
  induction evs with
  | nil =>
      intro s h
      simpa [run] using h
  | cons e rest ih =>
      intro s h
      have hr : run s (e :: rest) = run (stepEv s e) rest := by
        simp [run]
      rw [hr]
      exact ih _ (hP s e h)

theorem isSome_alookup_cons {α : Type} (k q : String) (v : α) (l : List (String × α))
    (h : (alookup q l).isSome = true) : (alookup q ((k, v) :: l)).isSome = true := by
  by_cases hk : k = q
  · simp [alookup, hk]
  · simp [alookup, hk, h]

theorem step_preserves_nodup (s : CState) (e : Ev)
    (h : (akeys s.sessions).Nodup) : (akeys (stepEv s e).sessions).Nodup := by
  cases e with
  | join pid =>
      show (akeys (onJoinSeen s pid).sessions).Nodup
      unfold onJoinSeen
      by_cases hg : pid = "" ∨ pid = s.clientId ∨ pid ∈ s.staleParticipants
          ∨ (alookup pid s.sessions).isSome
      · rw [if_pos hg]
        exact h
      · rw [if_neg hg]
        have habs : alookup pid s.sessions = none := by
          cases hl : alookup pid s.sessions with
          | none => rfl
          | some v =>
              exact absurd (Or.inr (Or.inr (Or.inr (by rw [hl]; rfl)))) hg
        simp only [akeys, List.nodup_cons]
        exact ⟨not_mem_akeys_of_alookup_none pid s.sessions habs, h⟩
  | offerArr pid sdp =>
      show (akeys (onOfferArrived s pid sdp).sessions).Nodup
      unfold onOfferArrived
      by_cases hg : pid = "" ∨ pid = s.clientId ∨ (alookup pid s.sessions).isSome
      · rw [if_pos hg]
        exact h
      · rw [if_neg hg]
        have habs : alookup pid s.sessions = none := by
          cases hl : alookup pid s.sessions with
          | none => rfl
          | some v =>
              exact absurd (Or.inr (Or.inr (by rw [hl]; rfl))) hg
        simp only [akeys, List.nodup_cons]
        exact ⟨not_mem_akeys_of_alookup_none pid s.sessions habs, h⟩
  | offerApp pid sdp =>
      show (akeys (onOfferApplied s pid sdp).sessions).Nodup
      unfold onOfferApplied
      by_cases hm : (pid, sdp) ∈ s.pendingInbound
      · rw [if_pos hm]
        cases hl : alookup pid s.sessions with
        | none => simpa [hl] using h
        | some sess => simpa [hl, akeys_aset] using h
      · rw [if_neg hm]
        exact h
  | answer pid sdp =>
      show (akeys (onAnswerArrived s pid sdp).sessions).Nodup
      unfold onAnswerArrived
      cases hl : alookup pid s.sessions with
      | none => simpa [hl] using h
      | some sess =>
          by_cases hr : sess.remoteDescription.isSome
          · simpa [hl, hr] using h
          · simpa [hl, hr, akeys_aset] using h
  | cand pid c =>
      show (akeys (onCandidateArrived s pid c).sessions).Nodup
      unfold onCandidateArrived
      cases hl : alookup pid s.sessions with
      | none => simpa [hl] using h
      | some sess =>
          by_cases hr : sess.remoteDescription.isSome
          · simpa [hl, hr, addIceCandidate, akeys_aset] using h
          · simpa [hl, hr, akeys_aset] using h
  | track pid sid =>
      show (akeys (onTrackFired s pid sid).sessions).Nodup
      unfold onTrackFired
      cases hl : alookup pid s.sessions with
      | none => simpa [hl] using h
      | some sess => simpa [hl] using h
  | connFail pid =>
      show (akeys (cleanupPeerConnection s pid).sessions).Nodup
      unfold cleanupPeerConnection
      by_cases hs : (alookup pid s.sessions).isSome
      · rw [if_pos hs]
        exact nodup_akeys_aremove pid s.sessions h
      · rw [if_neg hs]
        exact h

/-- C3: at most one peer session per peerId. In every state reachable by
any interleaving of membership-join, inbound-offer, answer, candidate,
track, and failure events, the session-table keys are duplicate-free; and
when a session for a peerId already exists, a later membership-join event
or inbound-offer event for that peerId leaves the whole state unchanged -
it neither constructs a second session nor overwrites the first, so
whichever of the two events arrives first is the one that constructs the
session. -/
theorem C3_at_most_one_session_per_peer (cid : String) (evs : List Ev)
    (s : CState) (pid sdp : String)
    (h : (alookup pid s.sessions).isSome) :
    (akeys (run (initState cid) evs).sessions).Nodup ∧
    onJoinSeen s pid = s ∧ onOfferArrived s pid sdp = s := by
  refine ⟨?_, ?_, ?_⟩
  · exact run_preserve (fun st => (akeys st.sessions).Nodup) step_preserves_nodup
      evs (initState cid) (by simp [initState, akeys])
  · unfold onJoinSeen
    rw [if_pos (Or.inr (Or.inr (Or.inr h)))]
  · unfold onOfferArrived
    rw [if_pos (Or.inr (Or.inr h))]

/-- Witness for C3 at a concrete input: after client b9 sees a1 join, a
redelivered join and an inbound offer from a1 both leave the state
unchanged, and the reachable state has duplicate-free session keys. -/
theorem C3_at_most_one_session_per_peer_witness :
    (akeys (run (initState "b9") [Ev.join "a1"]).sessions).Nodup ∧
    onJoinSeen (run (initState "b9") [Ev.join "a1"]) "a1"
      = run (initState "b9") [Ev.join "a1"] ∧
    onOfferArrived (run (initState "b9") [Ev.join "a1"]) "a1" "sdpX"
      = run (initState "b9") [Ev.join "a1"] :=
  C3_at_most_one_session_per_peer "b9" [Ev.join "a1"]
    (run (initState "b9") [Ev.join "a1"]) "a1" "sdpX" (by decide)

/-- C1 counterexample: the role is not decided by lexicographic id
comparison. Client b9 processing the membership join of peer a1 creates its
session for a1 with role Initiator and publishes an offer, although a1 is
the lexicographically smaller id (so the claim requires b9 to be Responder
and wait); symmetrically, client a1 processing the join of b9 also becomes
Initiator, so with join-before-offer delivery on both sides both ends of
the pair initiate. -/
theorem C1_counterexample :
    ("a1" : String) < "b9" ∧
    alookup "a1" (run (initState "b9") [Ev.join "a1"]).sessions
      = some (freshSession Role.Initiator) ∧
    (run (initState "b9") [Ev.join "a1"]).publishedOffers
      = [{ fromId := "b9", toId := "a1", payload := "offer" }] ∧
    alookup "b9" (run (initState "a1") [Ev.join "b9"]).sessions
      = some (freshSession Role.Initiator) := by
  refine ⟨?_, by decide, by decide, by decide⟩
  rw [String.lt_iff_toList_lt]
  decide

/-- C1 amended: the role of a session is decided by which event path
constructs it, not by id comparison. A session constructed from a
membership-join notification has role Initiator and exactly one offer
addressed to the peer is appended to the published offers, while a session
constructed from an inbound offer has role Responder and publishes no
offer. Both sides of a pair may thus become Initiator when each observes
the other's join before an offer arrives. -/
theorem C1_role_decided_by_event_path (s : CState) (pid sdp : String)
    (hne : pid ≠ "") (hself : pid ≠ s.clientId)
    (hstale : pid ∉ s.staleParticipants)
    (habs : alookup pid s.sessions = none) :
    (alookup pid (onJoinSeen s pid).sessions = some (freshSession Role.Initiator) ∧
      (onJoinSeen s pid).publishedOffers
        = s.publishedOffers ++ [{ fromId := s.clientId, toId := pid, payload := "offer" }]) ∧
    (alookup pid (onOfferArrived s pid sdp).sessions = some (freshSession Role.Responder) ∧
      (onOfferArrived s pid sdp).publishedOffers = s.publishedOffers) := by
  have hg : ¬(pid = "" ∨ pid = s.clientId ∨ pid ∈ s.staleParticipants
      ∨ (alookup pid s.sessions).isSome) := by
    simp [hne, hself, hstale, habs]
  have hg2 : ¬(pid = "" ∨ pid = s.clientId ∨ (alookup pid s.sessions).isSome) := by
    simp [hne, hself, habs]
  constructor
  · unfold onJoinSeen
    rw [if_neg hg]
    exact ⟨by simp [alookup], rfl⟩
  · unfold onOfferArrived
    rw [if_neg hg2]
    exact ⟨by simp [alookup], rfl⟩

/-- Witness for the amended C1 at a concrete input: at client b9 with an
empty table, a join of a1 yields an Initiator session plus one published
offer, and an inbound offer from a1 yields a Responder session with no
published offer. -/
theorem C1_role_decided_by_event_path_witness :
    (alookup "a1" (onJoinSeen (initState "b9") "a1").sessions
        = some (freshSession Role.Initiator) ∧
      (onJoinSeen (initState "b9") "a1").publishedOffers
        = (initState "b9").publishedOffers
            ++ [{ fromId := (initState "b9").clientId, toId := "a1", payload := "offer" }]) ∧
    (alookup "a1" (onOfferArrived (initState "b9") "a1" "sdpX").sessions
        = some (freshSession Role.Responder) ∧
      (onOfferArrived (initState "b9") "a1" "sdpX").publishedOffers
        = (initState "b9").publishedOffers) :=
  C1_role_decided_by_event_path (initState "b9") "a1" "sdpX"
    (by decide) (by decide) (by decide) (by decide)

/-- Coverage invariant: every peerId holding a remote stream has a live
session-table entry. -/
def streamsCovered (s : CState) : Prop :=
  ∀ pid, (alookup pid s.remoteStreams).isSome = true →
    (alookup pid s.sessions).isSome = true

theorem step_preserves_streamsCovered (s : CState) (e : Ev)
    (h : streamsCovered s) : streamsCovered (stepEv s e) := by
  cases e with
  | join pid =>
      show streamsCovered (onJoinSeen s pid)
      unfold onJoinSeen
      by_cases hg : pid = "" ∨ pid = s.clientId ∨ pid ∈ s.staleParticipants
          ∨ (alookup pid s.sessions).isSome
      · rw [if_pos hg]
        exact h
      · rw [if_neg hg]
        intro q hq
        exact isSome_alookup_cons pid q _ s.sessions (h q hq)
  | offerArr pid sdp =>
      show streamsCovered (onOfferArrived s pid sdp)
      unfold onOfferArrived
      by_cases hg : pid = "" ∨ pid = s.clientId ∨ (alookup pid s.sessions).isSome
      · rw [if_pos hg]
        exact h
      · rw [if_neg hg]
        intro q hq
        exact isSome_alookup_cons pid q _ s.sessions (h q hq)
  | offerApp pid sdp =>
      show streamsCovered (onOfferApplied s pid sdp)
      unfold onOfferApplied
      by_cases hm : (pid, sdp) ∈ s.pendingInbound
      · rw [if_pos hm]
        cases hl : alookup pid s.sessions with
        | none =>
            simp only [hl]
            intro q hq
            exact h q hq
        | some sess =>
            simp only [hl]
            intro q hq
            exact (isSome_alookup_aset pid q _ s.sessions).trans (h q hq)
      · rw [if_neg hm]
        exact h
  | answer pid sdp =>
      show streamsCovered (onAnswerArrived s pid sdp)
      unfold onAnswerArrived
      cases hl : alookup pid s.sessions with
      | none =>
          simp only [hl]
          exact h
      | some sess =>
          by_cases hr : sess.remoteDescription.isSome
          · simp only [hl, hr, if_pos]
            exact h
          · simp only [hl, hr, if_neg]
            intro q hq
            exact (isSome_alookup_aset pid q _ s.sessions).trans (h q hq)
  | cand pid c =>
      show streamsCovered (onCandidateArrived s pid c)
      unfold onCandidateArrived
      cases hl : alookup pid s.sessions with
      | none =>
          simp only [hl]
          exact h
      | some sess =>
          by_cases hr : sess.remoteDescription.isSome
          · simp only [hl, hr, addIceCandidate, if_pos]
            intro q hq
            exact (isSome_alookup_aset pid q _ s.sessions).trans (h q hq)
          · simp only [hl, hr, addIceCandidate, if_neg]
            intro q hq
            exact (isSome_alookup_aset pid q _ s.sessions).trans (h q hq)
  | track pid sid =>
      show streamsCovered (onTrackFired s pid sid)
      unfold onTrackFired
      cases hl : alookup pid s.sessions with
      | none =>
          simp only [hl]
          exact h
      | some sess =>
          simp only [hl]
          intro q hq
          have hd := (isSome_alookup_asetI pid q sid s.remoteStreams).mp hq
          rcases hd with hd | hd
          · subst hd
            rw [hl]
            rfl
          · exact h q hd
  | connFail pid =>
      show streamsCovered (cleanupPeerConnection s pid)
      unfold cleanupPeerConnection
      by_cases hs : (alookup pid s.sessions).isSome
      · rw [if_pos hs]
        intro q hq
        by_cases hqp : q = pid
        · subst hqp
          have : alookup q (aremove q s.remoteStreams) = none :=
            alookup_aremove_self q s.remoteStreams
          rw [show (alookup q ({ s with
              sessions := aremove q s.sessions
              remoteStreams := aremove q s.remoteStreams
              closedHandles := s.closedHandles ++ [q] } : CState).remoteStreams)
            = alookup q (aremove q s.remoteStreams) from rfl, this] at hq
          cases hq
        · have hq' : (alookup q s.remoteStreams).isSome = true := by
            rw [show (alookup q ({ s with
                sessions := aremove pid s.sessions
                remoteStreams := aremove pid s.remoteStreams
                closedHandles := s.closedHandles ++ [pid] } : CState).remoteStreams)
              = alookup q (aremove pid s.remoteStreams) from rfl,
              alookup_aremove_ne pid q s.remoteStreams hqp] at hq
            exact hq
          show (alookup q (aremove pid s.sessions)).isSome = true
          rw [alookup_aremove_ne pid q s.sessions hqp]
          exact h q hq'
      · rw [if_neg hs]
        intro q hq
        by_cases hqp : q = pid
        · subst hqp
          have : alookup q (aremove q s.remoteStreams) = none :=
            alookup_aremove_self q s.remoteStreams
          rw [show (alookup q ({ s with
              remoteStreams := aremove q s.remoteStreams } : CState).remoteStreams)
            = alookup q (aremove q s.remoteStreams) from rfl, this] at hq
          cases hq
        · have hq' : (alookup q s.remoteStreams).isSome = true := by
            rw [show (alookup q ({ s with
                remoteStreams := aremove pid s.remoteStreams } : CState).remoteStreams)
              = alookup q (aremove pid s.remoteStreams) from rfl,
              alookup_aremove_ne pid q s.remoteStreams hqp] at hq
            exact hq
          exact h q hq'

/-- C10: no orphaned remote stream. In every state reachable by any
interleaving of the orchestrator's events, a peerId that has an entry in
the remote-streams map also has a live entry in the session table: a
stream is recorded only by the track callback of a session still in the
table, and cleanup removes the stream together with the table entry. -/
theorem C10_stream_implies_session (cid : String) (evs : List Ev) (pid : String)
    (h : (alookup pid (run (initState cid) evs).remoteStreams).isSome = true) :
    (alookup pid (run (initState cid) evs).sessions).isSome = true :=
  run_preserve streamsCovered step_preserves_streamsCovered evs (initState cid)
    (fun q hq => by simp [initState, alookup] at hq) pid h

/-- Witness for C10 at a concrete input: after a join and a track event for
peer p the stream map has an entry for p, and the theorem yields a live
session for p. -/
theorem C10_stream_implies_session_witness :
    (alookup "p" (run (initState "self") [Ev.join "p", Ev.track "p" "s1"]).remoteStreams).isSome
      = true ∧
    (alookup "p" (run (initState "self") [Ev.join "p", Ev.track "p" "s1"]).sessions).isSome
      = true :=
  ⟨by decide,
    C10_stream_implies_session "self" [Ev.join "p", Ev.track "p" "s1"] "p" (by decide)⟩

/-- A concrete ICE candidate used in counterexamples and witnesses. -/
def cand0 : Cand :=
  { candidate := "cand0", sdpMLineIndex := 0, sdpMid := "0", usernameFragment := "u" }

/-- C2 counterexample: on the Responder path buffered candidates are never
flushed. Client b receives an offer from a (session created, remote
description still unset), a candidate from a arrives and is buffered, then
the pending offer is applied, setting a's remote description. In the
resulting state the remote description is set while the buffered candidate
still sits in pendingCandidates with nothing applied - and the only
flushing transition, the inbound-answer handler, is a no-op on this state
because a remote description is already set. This contradicts the claim
that once the remote description is set, all buffered candidates are
applied. -/
theorem C2_counterexample :
    alookup "a" (run (initState "b")
        [Ev.offerArr "a" "sdpA", Ev.cand "a" cand0, Ev.offerApp "a" "sdpA"]).sessions
      = some { role := Role.Responder, remoteDescription := some "sdpA",
               pendingCandidates := [cand0], appliedCandidates := [] } ∧
    onAnswerArrived (run (initState "b")
        [Ev.offerArr "a" "sdpA", Ev.cand "a" cand0, Ev.offerApp "a" "sdpA"]) "a" "ansA"
      = run (initState "b")
          [Ev.offerArr "a" "sdpA", Ev.cand "a" cand0, Ev.offerApp "a" "sdpA"] :=
  ⟨by decide, by decide⟩

/-- C2 amended: a candidate arriving before the remote description is set
is appended to the pending buffer and not applied; a candidate arriving
after the remote description is set is applied immediately; the pending
buffer is flushed - exactly once, in original FIFO order - only by the
inbound-answer handler when it sets the remote description (the Initiator
path); the inbound-offer handler sets the remote description without
flushing, so candidates buffered on a Responder session before its offer
is processed are not applied by it. -/
theorem C2_buffer_and_flush (s : CState) (pid sdp : String) (c : Cand) (sess : Session)
    (h : alookup pid s.sessions = some sess) :
    (sess.remoteDescription = none →
      alookup pid (onCandidateArrived s pid c).sessions
        = some { sess with pendingCandidates := sess.pendingCandidates ++ [c] }) ∧
    (sess.remoteDescription.isSome = true →
      alookup pid (onCandidateArrived s pid c).sessions
        = some { sess with appliedCandidates := sess.appliedCandidates ++ [c] }) ∧
    (sess.remoteDescription = none →
      alookup pid (onAnswerArrived s pid sdp).sessions
        = some { sess with
            remoteDescription := some sdp
            appliedCandidates := sess.appliedCandidates ++ sess.pendingCandidates
            pendingCandidates := [] }) ∧
    ((pid, sdp) ∈ s.pendingInbound →
      alookup pid (onOfferApplied s pid sdp).sessions
        = some { sess with remoteDescription := some sdp }) := by
  have hsome : (alookup pid s.sessions).isSome = true := by
    rw [h]
    rfl
  refine ⟨?_, ?_, ?_, ?_⟩
  · intro hr
    unfold onCandidateArrived
    simp only [h, hr, Option.isSome_none, Bool.false_eq_true, if_false]
    exact alookup_aset_self pid _ s.sessions hsome
  · intro hr
    unfold onCandidateArrived addIceCandidate
    simp only [h, hr, if_true]
    exact alookup_aset_self pid _ s.sessions hsome
  · intro hr
    unfold onAnswerArrived
    simp only [h, hr, Option.isSome_none, Bool.false_eq_true, if_false]
    exact alookup_aset_self pid _ s.sessions hsome
  · intro hm
    unfold onOfferApplied
    simp only [h, if_pos hm]
    exact alookup_aset_self pid _ s.sessions hsome

/-- Witness for the amended C2 at concrete inputs: a candidate before the
offer is buffered; a candidate after the remote description is set is
applied immediately; an answer on an Initiator session flushes the buffer
in order; applying a pending inbound offer sets the remote description
without touching the buffers. -/
theorem C2_buffer_and_flush_witness :
    alookup "a" (onCandidateArrived (run (initState "b") [Ev.offerArr "a" "sdpA"]) "a" cand0).sessions
      = some { role := Role.Responder, remoteDescription := none,
               pendingCandidates := [cand0], appliedCandidates := [] } ∧
    alookup "a" (onCandidateArrived
        (run (initState "b") [Ev.offerArr "a" "sdpA", Ev.offerApp "a" "sdpA"]) "a" cand0).sessions
      = some { role := Role.Responder, remoteDescription := some "sdpA",
               pendingCandidates := [], appliedCandidates := [cand0] } ∧
    alookup "a" (onAnswerArrived
        (run (initState "b") [Ev.join "a", Ev.cand "a" cand0]) "a" "ansA").sessions
      = some { role := Role.Initiator, remoteDescription := some "ansA",
               pendingCandidates := [], appliedCandidates := [cand0] } ∧
    alookup "a" (onOfferApplied (run (initState "b") [Ev.offerArr "a" "sdpA"]) "a" "sdpA").sessions
      = some { role := Role.Responder, remoteDescription := some "sdpA",
               pendingCandidates := [], appliedCandidates := [] } := by
  refine ⟨?_, ?_, ?_, ?_⟩
  · exact (C2_buffer_and_flush (run (initState "b") [Ev.offerArr "a" "sdpA"]) "a" "x" cand0
      (freshSession Role.Responder) (by decide)).1 rfl
  · exact (C2_buffer_and_flush
      (run (initState "b") [Ev.offerArr "a" "sdpA", Ev.offerApp "a" "sdpA"]) "a" "x" cand0
      { role := Role.Responder, remoteDescription := some "sdpA",
        pendingCandidates := [], appliedCandidates := [] } (by decide)).2.1 rfl
  · exact (C2_buffer_and_flush
      (run (initState "b") [Ev.join "a", Ev.cand "a" cand0]) "a" "ansA" cand0
      { role := Role.Initiator, remoteDescription := none,
        pendingCandidates := [cand0], appliedCandidates := [] } (by decide)).2.2.1 rfl
  · exact (C2_buffer_and_flush (run (initState "b") [Ev.offerArr "a" "sdpA"]) "a" "sdpA" cand0
      (freshSession Role.Responder) (by decide)).2.2.2 (by decide)

theorem alookup_onOfferApplied_isSome (s : CState) (pid q sdp : String)
    (h : (alookup q s.sessions).isSome = true) :
    (alookup q (onOfferApplied s pid sdp).sessions).isSome = true := by
  unfold onOfferApplied
  by_cases hm : (pid, sdp) ∈ s.pendingInbound
  · rw [if_pos hm]
    cases hl : alookup pid s.sessions with
    | none =>
        simp only [hl]
        exact h
    | some sess =>
        simp only [hl]
        exact (isSome_alookup_aset pid q _ s.sessions).trans h
  · rw [if_neg hm]
    exact h

/-- C4: store redelivery is idempotent. Delivering the same offer record a
second time produces exactly the state of the first delivery - in
particular no second session is constructed and no second answer record is
published; delivering the same answer record a second time likewise leaves
the state of the first delivery unchanged; and when the remote description
is already set (the state in which a redelivered candidate reaches the
engine), the engine addIceCandidate call succeeds rather than raising an
error, while any candidate delivery leaves the session-table keys and the
published answers untouched. -/
theorem C4_redelivery_idempotent (s : CState) (pid sdp asdp : String) (c : Cand)
    (sess : Session) (hrd : sess.remoteDescription.isSome = true) :
    deliverOfferRecord (deliverOfferRecord s pid sdp) pid sdp
      = deliverOfferRecord s pid sdp ∧
    onAnswerArrived (onAnswerArrived s pid asdp) pid asdp
      = onAnswerArrived s pid asdp ∧
    (∃ sess2, addIceCandidate sess c = Except.ok sess2) ∧
    akeys (onCandidateArrived s pid c).sessions = akeys s.sessions ∧
    (onCandidateArrived s pid c).publishedAnswers = s.publishedAnswers := by
  refine ⟨?_, ?_, ?_, ?_, ?_⟩
  · by_cases hg : pid = "" ∨ pid = s.clientId ∨ (alookup pid s.sessions).isSome
    · have e1 : deliverOfferRecord s pid sdp = s := by
        unfold deliverOfferRecord
        rw [if_pos hg]
      rw [e1, e1]
    · have e1 : deliverOfferRecord s pid sdp
          = onOfferApplied (onOfferArrived s pid sdp) pid sdp := by
        unfold deliverOfferRecord
        rw [if_neg hg]
      have hfresh : (alookup pid (onOfferArrived s pid sdp).sessions).isSome = true := by
        unfold onOfferArrived
        rw [if_neg hg]
        simp [alookup]
      have h2 : (alookup pid (deliverOfferRecord s pid sdp).sessions).isSome = true := by
        rw [e1]
        exact alookup_onOfferApplied_isSome (onOfferArrived s pid sdp) pid pid sdp hfresh
      conv_lhs => rw [deliverOfferRecord]
      rw [if_pos (Or.inr (Or.inr h2))]
  · cases hl : alookup pid s.sessions with
    | none =>
        have e1 : onAnswerArrived s pid asdp = s := by
          unfold onAnswerArrived
          simp only [hl]
        rw [e1, e1]
    | some sess1 =>
        by_cases hr : sess1.remoteDescription.isSome
        · have e1 : onAnswerArrived s pid asdp = s := by
            unfold onAnswerArrived
            simp only [hl, hr, if_true]
          rw [e1, e1]
        · have hsome : (alookup pid s.sessions).isSome = true := by
            rw [hl]
            rfl
          have e1 : onAnswerArrived s pid asdp
              = { s with
                  sessions :=
                    aset pid
                      { sess1 with
                        remoteDescription := some asdp
                        appliedCandidates := sess1.appliedCandidates ++ sess1.pendingCandidates
                        pendingCandidates := [] }
                      s.sessions } := by
            unfold onAnswerArrived
            simp only [hl, hr, Bool.false_eq_true, if_false]
          rw [e1]
          unfold onAnswerArrived
          simp only [alookup_aset_self pid _ s.sessions hsome, Option.isSome_some, if_true]
  · exact ⟨{ sess with appliedCandidates := sess.appliedCandidates ++ [c] },
      by unfold addIceCandidate; rw [if_pos hrd]⟩
  · unfold onCandidateArrived addIceCandidate
    cases hl : alookup pid s.sessions with
    | none => simp only [hl]
    | some sess1 =>
        by_cases hr : sess1.remoteDescription.isSome
        · simp only [hl, hr, if_true]
          exact akeys_aset pid _ s.sessions
        · simp only [hl, hr, Bool.false_eq_true, if_false]
          exact akeys_aset pid _ s.sessions
  · unfold onCandidateArrived addIceCandidate
    cases hl : alookup pid s.sessions with
    | none => simp only [hl]
    | some sess1 =>
        by_cases hr : sess1.remoteDescription.isSome
        · simp only [hl, hr, if_true]
        · simp only [hl, hr, Bool.false_eq_true, if_false]

/-- Witness for C4 at concrete inputs: client b with a pending offer, an
Initiator session after an applied answer, and a session whose remote
description is set. -/
theorem C4_redelivery_idempotent_witness :
    deliverOfferRecord (deliverOfferRecord (initState "b") "a" "sdpA") "a" "sdpA"
      = deliverOfferRecord (initState "b") "a" "sdpA" ∧
    onAnswerArrived (onAnswerArrived (run (initState "b") [Ev.join "a"]) "a" "ansA") "a" "ansA"
      = onAnswerArrived (run (initState "b") [Ev.join "a"]) "a" "ansA" ∧
    (∃ sess2, addIceCandidate
        { role := Role.Responder, remoteDescription := some "sdpA",
          pendingCandidates := [], appliedCandidates := [] } cand0 = Except.ok sess2) ∧
    akeys (onCandidateArrived (run (initState "b") [Ev.join "a"]) "a" cand0).sessions
      = akeys (run (initState "b") [Ev.join "a"]).sessions ∧
    (onCandidateArrived (run (initState "b") [Ev.join "a"]) "a" cand0).publishedAnswers
      = (run (initState "b") [Ev.join "a"]).publishedAnswers := by
  have h := C4_redelivery_idempotent (initState "b") "a" "sdpA" "ansA" cand0
    { role := Role.Responder, remoteDescription := some "sdpA",
      pendingCandidates := [], appliedCandidates := [] } (by decide)
  have h2 := C4_redelivery_idempotent (run (initState "b") [Ev.join "a"]) "a" "sdpA" "ansA"
    cand0
    { role := Role.Responder, remoteDescription := some "sdpA",
      pendingCandidates := [], appliedCandidates := [] } (by decide)
  exact ⟨h.1, h2.2.1, h.2.2.1, h2.2.2.2.1, h2.2.2.2.2⟩

/-- C6: the peer-departure and connection-failure handler (both are
cleanupPeerConnection) removes the peerId from the session table, removes
the peerId from the remote-streams map, records the close of the
connection-engine handle whenever a session existed, and a second
invocation for the same peerId leaves the whole state - in particular the
session table and the remote-streams map - unchanged, so invoking it for a
peerId already absent from the table is an idempotent no-op. -/
theorem C6_cleanup_idempotent (s : CState) (pid : String) :
    alookup pid (cleanupPeerConnection s pid).sessions = none ∧
    alookup pid (cleanupPeerConnection s pid).remoteStreams = none ∧
    ((alookup pid s.sessions).isSome = true →
      pid ∈ (cleanupPeerConnection s pid).closedHandles) ∧
    cleanupPeerConnection (cleanupPeerConnection s pid) pid
      = cleanupPeerConnection s pid := by
  refine ⟨?_, ?_, ?_, ?_⟩
  · unfold cleanupPeerConnection
    by_cases hs : (alookup pid s.sessions).isSome
    · rw [if_pos hs]
      exact alookup_aremove_self pid s.sessions
    · rw [if_neg hs]
      show alookup pid s.sessions = none
      cases hl : alookup pid s.sessions with
      | none => rfl
      | some v =>
          rw [hl] at hs
          exact absurd rfl hs
  · unfold cleanupPeerConnection
    by_cases hs : (alookup pid s.sessions).isSome
    · rw [if_pos hs]
      exact alookup_aremove_self pid s.remoteStreams
    · rw [if_neg hs]
      exact alookup_aremove_self pid s.remoteStreams
  · intro hs
    unfold cleanupPeerConnection
    rw [if_pos hs]
    show pid ∈ s.closedHandles ++ [pid]
    simp
  · by_cases hs : (alookup pid s.sessions).isSome
    · have e1 : cleanupPeerConnection s pid
          = { s with
              sessions := aremove pid s.sessions
              remoteStreams := aremove pid s.remoteStreams
              closedHandles := s.closedHandles ++ [pid] } := by
        unfold cleanupPeerConnection
        rw [if_pos hs]
      rw [e1]
      unfold cleanupPeerConnection
      rw [if_neg (by
        show ¬(alookup pid (aremove pid s.sessions)).isSome = true
        rw [alookup_aremove_self pid s.sessions]
        simp)]
      simp only [aremove_aremove]
    · have hnone : alookup pid s.sessions = none := by
        cases hl : alookup pid s.sessions with
        | none => rfl
        | some v =>
            rw [hl] at hs
            exact absurd rfl hs
      have e1 : cleanupPeerConnection s pid
          = { s with remoteStreams := aremove pid s.remoteStreams } := by
        unfold cleanupPeerConnection
        rw [if_neg hs]
      rw [e1]
      unfold cleanupPeerConnection
      rw [if_neg (by
        show ¬(alookup pid s.sessions).isSome = true
        rw [hnone]
        simp)]
      simp only [aremove_aremove]

/-- Witness for C6 at a concrete input: after b sees p join and receives a
track from p, cleaning up p empties its entries, records the handle close,
and a second cleanup changes nothing. -/
theorem C6_cleanup_idempotent_witness :
    alookup "p" (cleanupPeerConnection
        (run (initState "b") [Ev.join "p", Ev.track "p" "s1"]) "p").sessions = none ∧
    alookup "p" (cleanupPeerConnection
        (run (initState "b") [Ev.join "p", Ev.track "p" "s1"]) "p").remoteStreams = none ∧
    "p" ∈ (cleanupPeerConnection
        (run (initState "b") [Ev.join "p", Ev.track "p" "s1"]) "p").closedHandles ∧
    cleanupPeerConnection (cleanupPeerConnection
        (run (initState "b") [Ev.join "p", Ev.track "p" "s1"]) "p") "p"
      = cleanupPeerConnection (run (initState "b") [Ev.join "p", Ev.track "p" "s1"]) "p" := by
  have h := C6_cleanup_idempotent (run (initState "b") [Ev.join "p", Ev.track "p" "s1"]) "p"
  exact ⟨h.1, h.2.1, h.2.2.1 (by decide), h.2.2.2⟩

/-- The visible actions of one invocation of the participants onSnapshot
callback, lines 475-502: the peers for which createPeerConnection with
shouldInitiate true is invoked, the peers passed to cleanupPeerConnection,
and the value passed to setParticipants. -/
structure SnapshotResult where
  newSessions : List String
  cleanedUp : List String
  stored : List String
deriving DecidableEq, Repr

/-- The participants onSnapshot callback, lines 475-502. capturedPrev is
the participants React state the listener closure reads at lines 488 and
494: the listener is registered exactly once, inside joinRoom as invoked
from the first render's mount effect, so the closure permanently captures
the initial value - the empty set - and the setParticipants call at line
501 never changes what the closure sees; every real invocation therefore
runs with capturedPrev = []. sessionKeys is the key set of the
peerConnections ref (refs are not stale). snapshotIds are the ids carried
by the snapshot's participant docs; the builder at lines 478-483 keeps the
nonempty ids different from self. -/
def processSnapshot (cid : String) (capturedPrev sessionKeys snapshotIds : List String) :
    SnapshotResult :=
  let current := snapshotIds.filter (fun pid => !(pid == "") && !(pid == cid))
  { newSessions :=
      current.filter (fun pid => !(capturedPrev.contains pid) && !(sessionKeys.contains pid))
    cleanedUp := capturedPrev.filter (fun pid => !(current.contains pid))
    stored := current }

/-- Modelled from the spec: the leave diff the RoomMembershipTracker is
required to emit on each snapshot update, Left = previous − new. The
membership tracking in src computes its diff against a stale closure value
instead of the stored previous snapshot; this definition follows the
spec's words for comparison. -/
def specLeft (prev new : List String) : List String :=
  prev.filter (fun pid => !(new.contains pid))

/-- C5 evaluated at the failing input. First snapshot: the room holds self
and p, and the callback (running with the permanently captured empty
previous set) creates a session for p and stores the snapshot. Second
snapshot: p has left and a session for p exists; the claim requires the
leave events previous − new = [p] to be emitted, but the callback again
diffs against the captured empty set and cleans up nothing, so p's
session survives and the live session count exceeds the remote-participant
count at the quiescent point. -/
theorem C5_no_leave_events_emitted :
    (processSnapshot "self" [] [] ["self", "p"]).newSessions = ["p"] ∧
    (processSnapshot "self" [] [] ["self", "p"]).stored = ["p"] ∧
    specLeft ["p"] [] = ["p"] ∧
    (processSnapshot "self" [] ["p"] ["self"]).cleanedUp = [] ∧
    (processSnapshot "self" [] ["p"] ["self"]).cleanedUp ≠ specLeft ["p"] [] := by
  decide

/-- App-level state for teardown: the keys of the live peer-connection
table, the registered transport subscriptions (unsubscribeFunctions), and
the participant docs present in the store, keyed by (roomId, clientId). -/
structure AppState where
  sessionKeys : List String
  subscriptions : List Nat
  participantDocs : List (String × String)
deriving DecidableEq, Repr

/-- leaveRoom, lines 797-805: deletes the local participant record,
guarded by truthiness of clientId and roomId at line 798; a deletion
failure is caught and logged (lines 801-803), not fatal. roomIdArg is the
roomId binding captured by the invoked closure. -/
def leaveRoom (roomIdArg cid : String) (docs : List (String × String)) :
    List (String × String) :=
  if roomIdArg ≠ "" ∧ cid ≠ "" then docs.filter (fun d => !(d == (roomIdArg, cid)))
  else docs

/-- The mount-effect cleanup, lines 442-452: it stops local tracks (the
captured localStream is the first render's null, so the guard at line 444
skips that), closes every peer connection and clears the table, runs every
unsubscribe function and clears the list, then calls leaveRoom. The
leaveRoom it calls is the first render's binding, whose captured roomId
state is the initial empty string - the setRoomId re-render does not
change what this once-registered cleanup closure sees. -/
def effectCleanup (cid : String) (s : AppState) : AppState :=
  { sessionKeys := []
    subscriptions := []
    participantDocs := leaveRoom "" cid s.participantDocs }

/-- The Leave Room button handler (line 840): invokes the current render's
leaveRoom with the current roomId; it deletes the participant record and
touches neither the session table nor the subscriptions. -/
def buttonLeaveRoom (currentRoomId cid : String) (s : AppState) : AppState :=
  { s with participantDocs := leaveRoom currentRoomId cid s.participantDocs }

/-- C7 evaluated at the failing input: client c1 in room meet-123 with one
live session, one subscription, and its participant record published. The
unmount cleanup closes the session and cancels the subscription but
reaches leaveRoom through the stale first-render closure whose roomId is
the empty string, so the guarded deletion is skipped and the participant
record survives; the Leave Room button deletes the record but closes no
session and cancels no subscription. Neither path performs all three
actions the claim requires of leaving a room. -/
theorem C7_teardown_leaves_participant_record :
    (effectCleanup "c1" ⟨["p"], [0], [("meet-123", "c1")]⟩).sessionKeys = [] ∧
    (effectCleanup "c1" ⟨["p"], [0], [("meet-123", "c1")]⟩).subscriptions = [] ∧
    (effectCleanup "c1" ⟨["p"], [0], [("meet-123", "c1")]⟩).participantDocs
      = [("meet-123", "c1")] ∧
    (buttonLeaveRoom "meet-123" "c1" ⟨["p"], [0], [("meet-123", "c1")]⟩).participantDocs
      = [] ∧
    (buttonLeaveRoom "meet-123" "c1" ⟨["p"], [0], [("meet-123", "c1")]⟩).sessionKeys
      = ["p"] ∧
    (buttonLeaveRoom "meet-123" "c1" ⟨["p"], [0], [("meet-123", "c1")]⟩).subscriptions
      = [0] := by
  decide

/-- One attempted media capture: either a stream was obtained or access
was denied. -/
inductive MediaAttempt where
  | granted (streamId : String)
  | denied
deriving DecidableEq, Repr

/-- The user-visible outcome of initRoom's media phase: the stream the
client joined the room with (if any), the non-fatal audio-only notice, and
the fatal no-device notice. -/
structure InitOutcome where
  joinedStream : Option String
  audioOnlyNotice : Bool
  fatalNotice : Bool
deriving DecidableEq, Repr

/-- initRoom's media logic, lines 416-438: try a video+audio capture and
join with it; on failure retry with an audio-only capture, join with that
stream and alert that the call proceeds with audio only; if the retry also
fails, alert that no device is accessible and never call joinRoom. -/
def initRoomMedia : MediaAttempt → MediaAttempt → InitOutcome
  | MediaAttempt.granted v, _ =>
      { joinedStream := some v, audioOnlyNotice := false, fatalNotice := false }
  | MediaAttempt.denied, MediaAttempt.granted a =>
      { joinedStream := some a, audioOnlyNotice := true, fatalNotice := false }
  | MediaAttempt.denied, MediaAttempt.denied =>
      { joinedStream := none, audioOnlyNotice := false, fatalNotice := true }

/-- joinRoom publishes the local participant record (lines 469-473);
initRoom calls joinRoom exactly when one of the captures succeeded, so the
store gains the client's record exactly when a stream was obtained. -/
def initRoomRecords (cid : String) (video audio : MediaAttempt)
    (store : List String) : List String :=
  if (initRoomMedia video audio).joinedStream.isSome then store ++ [cid] else store

/-- C8: when the camera capture fails and the audio-only retry succeeds,
the client joins with the audio-only stream under the non-fatal audio-only
notice and its participant record is published; when the audio-only retry
also fails, the fatal notice is surfaced, no stream joins the room, and no
participant record is published. -/
theorem C8_media_fallback (a cid : String) (store : List String) :
    initRoomMedia MediaAttempt.denied (MediaAttempt.granted a)
      = { joinedStream := some a, audioOnlyNotice := true, fatalNotice := false } ∧
    initRoomMedia MediaAttempt.denied MediaAttempt.denied
      = { joinedStream := none, audioOnlyNotice := false, fatalNotice := true } ∧
    initRoomRecords cid MediaAttempt.denied MediaAttempt.denied store = store ∧
    initRoomRecords cid MediaAttempt.denied (MediaAttempt.granted a) store
      = store ++ [cid] := by
  refine ⟨rfl, rfl, ?_, ?_⟩
  · simp [initRoomRecords, initRoomMedia]
  · simp [initRoomRecords, initRoomMedia]

/-- Modelled from the spec: a MessageBus chat message with the metadata
send attaches - senderId, a display name derived from the ClientId, a
timestamp, and a unique message id. The MessageBus of section 4.4 is not
present in src (the implementation has no data channel), so the component
is modelled from the spec's words. -/
structure ChatMessage where
  senderId : String
  senderName : String
  sentAt : Nat
  msgId : String
  kind : String
  payload : String
deriving DecidableEq, Repr

/-- Modelled from the spec: the display name derived from the ClientId; the
UI derives participant labels from the first eight characters of an id. -/
def displayName (cid : String) : String :=
  cid.take 8

/-- Modelled from the spec: one peer session as the MessageBus sees it -
whether its data channel is currently open, and the timeline of messages
that reached that peer. -/
structure BusPeer where
  peerId : String
  channelOpen : Bool
  timeline : List ChatMessage
deriving DecidableEq, Repr

/-- Modelled from the spec: the MessageBus state - the local timeline and
the sessions the bus fans out to. -/
structure BusState where
  selfId : String
  timeline : List ChatMessage
  peers : List BusPeer
deriving DecidableEq, Repr

/-- Modelled from the spec: send(kind, payload) attaches senderId, display
name, timestamp and message id, appends the message unconditionally to the
local timeline (local echo), then transmits to every session whose data
channel is currently open; sessions whose channel is not open are skipped
with no queueing, no backpressure and no replay. -/
def send (s : BusState) (kind payload : String) (sentAt : Nat) (msgId : String) : BusState :=
  let msg : ChatMessage :=
    { senderId := s.selfId, senderName := displayName s.selfId
      sentAt := sentAt, msgId := msgId, kind := kind, payload := payload }
  { s with
    timeline := s.timeline ++ [msg]
    peers := s.peers.map (fun p =>
      if p.channelOpen then { p with timeline := p.timeline ++ [msg] } else p) }

/-- C9 (spec-modelled): send appends the message, carrying senderId,
derived display name, timestamp and message id, unconditionally to the
sender's local timeline; a peer whose data channel is open is transmitted
exactly that message, appended to its timeline; a peer whose channel is
not open is left completely unchanged, so the message is present in the
sender's timeline and absent from that peer's (unchanged) timeline. -/
theorem C9_send_local_echo_and_fanout (s : BusState) (kind payload : String)
    (sentAt : Nat) (msgId : String) (p : BusPeer) (hp : p ∈ s.peers) :
    (send s kind payload sentAt msgId).timeline
      = s.timeline
          ++ [{ senderId := s.selfId, senderName := displayName s.selfId,
                sentAt := sentAt, msgId := msgId, kind := kind, payload := payload }] ∧
    (p.channelOpen = true →
      { p with timeline := p.timeline
          ++ [{ senderId := s.selfId, senderName := displayName s.selfId,
                sentAt := sentAt, msgId := msgId, kind := kind, payload := payload }] }
        ∈ (send s kind payload sentAt msgId).peers) ∧
    (p.channelOpen = false → p ∈ (send s kind payload sentAt msgId).peers) := by
  refine ⟨rfl, ?_, ?_⟩
  · intro hopen
    have h1 := List.mem_map_of_mem (fun q : BusPeer =>
      if q.channelOpen then
        { q with timeline := q.timeline
            ++ [{ senderId := s.selfId, senderName := displayName s.selfId,
                  sentAt := sentAt, msgId := msgId, kind := kind,
                  payload := payload }] }
      else q) hp
    beta_reduce at h1
    rw [if_pos hopen] at h1
    exact h1
  · intro hclosed
    have h1 := List.mem_map_of_mem (fun q : BusPeer =>
      if q.channelOpen then
        { q with timeline := q.timeline
            ++ [{ senderId := s.selfId, senderName := displayName s.selfId,
                  sentAt := sentAt, msgId := msgId, kind := kind,
                  payload := payload }] }
      else q) hp
    beta_reduce at h1
    have hneg : ¬ p.channelOpen = true := by
      simp [hclosed]
    rw [if_neg hneg] at h1
    exact h1

/-- Witness for C9 at a concrete input: a bus with one open-channel peer
and one closed-channel peer; after send, the message is in the sender's
timeline and in the open peer's timeline, while the closed peer is
unchanged with an empty timeline. -/
theorem C9_send_local_echo_and_fanout_witness :
    (send { selfId := "c1", timeline := [],
            peers := [{ peerId := "p1", channelOpen := true, timeline := [] },
                      { peerId := "p2", channelOpen := false, timeline := [] }] }
        "chat" "hi" 5 "m1").timeline
      = [{ senderId := "c1", senderName := displayName "c1", sentAt := 5,
           msgId := "m1", kind := "chat", payload := "hi" }] ∧
    ({ peerId := "p1", channelOpen := true,
       timeline := [{ senderId := "c1", senderName := displayName "c1", sentAt := 5,
                      msgId := "m1", kind := "chat", payload := "hi" }] } : BusPeer)
      ∈ (send { selfId := "c1", timeline := [],
                peers := [{ peerId := "p1", channelOpen := true, timeline := [] },
                          { peerId := "p2", channelOpen := false, timeline := [] }] }
          "chat" "hi" 5 "m1").peers ∧
    ({ peerId := "p2", channelOpen := false, timeline := [] } : BusPeer)
      ∈ (send { selfId := "c1", timeline := [],
                peers := [{ peerId := "p1", channelOpen := true, timeline := [] },
                          { peerId := "p2", channelOpen := false, timeline := [] }] }
          "chat" "hi" 5 "m1").peers := by
  have h1 := C9_send_local_echo_and_fanout
    { selfId := "c1", timeline := [],
      peers := [{ peerId := "p1", channelOpen := true, timeline := [] },
                { peerId := "p2", channelOpen := false, timeline := [] }] }
    "chat" "hi" 5 "m1"
    { peerId := "p1", channelOpen := true, timeline := [] } (by simp)
  have h2 := C9_send_local_echo_and_fanout
    { selfId := "c1", timeline := [],
      peers := [{ peerId := "p1", channelOpen := true, timeline := [] },
                { peerId := "p2", channelOpen := false, timeline := [] }] }
    "chat" "hi" 5 "m1"
    { peerId := "p2", channelOpen := false, timeline := [] } (by simp)
  exact ⟨h1.1, h1.2.1 rfl, h2.2.2 rfl⟩

end MeetClone
